import Mathlib

/-
Verification of the conversational-filler web demo utility scripts
(packages/convert-safetensors-onnx).  Strings are modelled as `List Char`;
the Python string operations used by the scripts (`str.replace` with empty
replacement, `re.sub(r'^assistant\s*', ...)`, `str.strip`, `str.split`) are
embedded as executable Lean functions, and the comparison and conversion
pipelines are modelled with explicit effect outcomes (`Except`).
-/

namespace ConvoFiller

/-- Characters the Python runtime treats as whitespace in `str.strip()`,
`str.split()` and the regex class `\s`, restricted to the ASCII range the
scripts operate on. -/
def isPySpace (c : Char) : Bool :=
  c = ' ' || c = '\t' || c = '\n' || c = '\r' || c = '\x0b' || c = '\x0c'

/-- Fuel-indexed core of Python `s.replace(pat, "")`: a single left-to-right
pass that removes non-overlapping occurrences of `pat`; after a removal the
scan resumes after the removed occurrence and never rescans the output built
so far.  Fuel `s.length` suffices for a nonempty pattern. -/
def pyRemoveAux (pat : List Char) : Nat → List Char → List Char
  | _, [] => []
  | 0, s => s
  | fuel + 1, c :: cs =>
    if pat.isPrefixOf (c :: cs) then
      pyRemoveAux pat fuel (List.drop pat.length (c :: cs))
    else
      c :: pyRemoveAux pat fuel cs

/-- Python `s.replace(pat, "")`. -/
def pyRemoveAll (pat s : List Char) : List Char :=
  pyRemoveAux pat s.length s

/-- Whether `pat` occurs as a contiguous substring of the second argument. -/
def occursIn (pat : List Char) : List Char → Bool
  | [] => pat.isEmpty
  | c :: cs => pat.isPrefixOf (c :: cs) || occursIn pat cs

/-- The utterance-start role marker of the ChatML-style template. -/
def imStartMarker : List Char := "<|im_start|>".data

/-- The utterance-end role marker of the ChatML-style template. -/
def imEndMarker : List Char := "<|im_end|>".data

/-- Lower-case form of the role label stripped from the front of a response. -/
def assistantLabel : List Char := "assistant".data

/-- Python `re.sub(r'^assistant\s*', '', s, flags=re.IGNORECASE)`: when the
string begins with the nine letters of the label in any case, drop them
together with the longest following run of whitespace (case folding modelled
on the ASCII range). -/
def stripAssistantLabel (s : List Char) : List Char :=
  if (s.take 9).map Char.toLower = assistantLabel then
    (s.drop 9).dropWhile isPySpace
  else
    s

/-- Python `s.strip()`: remove whitespace from both ends. -/
def pyStrip (s : List Char) : List Char :=
  ((s.dropWhile isPySpace).reverse.dropWhile isPySpace).reverse

/-- Python `s.split("\n")[0]`: everything before the first newline
(for the empty string, `"".split("\n")` is `[""]`, so the result is empty). -/
def firstLine (s : List Char) : List Char :=
  s.takeWhile (fun c => c ≠ '\n')

/-- The response-cleaning procedure of `ModelComparator.compare_responses`
(test_model_comparison.py lines 81-87): remove both role markers, strip a
leading assistant label, strip surrounding whitespace, keep the first line. -/
def clean (s : List Char) : List Char :=
  firstLine (pyStrip (stripAssistantLabel
    (pyRemoveAll imEndMarker (pyRemoveAll imStartMarker s))))

example : clean "<|im_start|>Assistant\nParis is the capital.<|im_end|>\nExtra line".data
    = "Paris is the capital.".data := by decide

example : clean "a \nb".data = "a ".data := by decide

example : clean "assistantassistant".data = "assistant".data := by decide

example : clean "<|im_st<|im_start|>art|>".data = "<|im_start|>".data := by decide

/-- Accumulator-based core of Python `s.split()` with no argument: split on
runs of whitespace, discarding empty tokens. -/
def pyWordsAux (acc : List Char) : List Char → List (List Char)
  | [] => if acc = [] then [] else [acc.reverse]
  | c :: cs =>
    if isPySpace c then
      if acc = [] then pyWordsAux [] cs else acc.reverse :: pyWordsAux [] cs
    else
      pyWordsAux (c :: acc) cs

/-- Python `s.split()` with no argument. -/
def pyWords (s : List Char) : List (List Char) :=
  pyWordsAux [] s

/-- Python `set(s.split())`: the set of whitespace-separated words. -/
def wordSet (s : List Char) : Finset (List Char) :=
  (pyWords s).toFinset

/-- The result record built by `ModelComparator.compare_responses`
(ignoring the prompt and timing fields, which are I/O). -/
structure ComparisonResult where
  original_response : List Char
  onnx_response : List Char
  original_cleaned : List Char
  onnx_cleaned : List Char
  exact_match : Bool
deriving DecidableEq

/-- Pure core of `ModelComparator.compare_responses`: clean both raw
responses and compare the cleaned strings
(test_model_comparison.py lines 81-106). -/
def compare_responses (original_response onnx_response : List Char) : ComparisonResult :=
  let original_cleaned := clean original_response
  let onnx_cleaned := clean onnx_response
  { original_response := original_response
    onnx_response := onnx_response
    original_cleaned := original_cleaned
    onnx_cleaned := onnx_cleaned
    exact_match := onnx_cleaned == original_cleaned }

/-- The similarity block of `compare_responses`
(test_model_comparison.py lines 109-115): only when the cleaned strings are
not an exact match and at least one word set is nonempty is the Jaccard
ratio computed; otherwise it is skipped (`none`).  Python's float division
of the two set sizes is modelled as exact division in `ℚ`. -/
def jaccardMetric (original_cleaned onnx_cleaned : List Char) : Option ℚ :=
  if onnx_cleaned == original_cleaned then none
  else
    let orig_tokens := wordSet original_cleaned
    let onnx_tokens := wordSet onnx_cleaned
    if orig_tokens.Nonempty ∨ onnx_tokens.Nonempty then
      some (((orig_tokens ∩ onnx_tokens).card : ℚ) / ((orig_tokens ∪ onnx_tokens).card : ℚ))
    else
      none

example : jaccardMetric "hello there".data "hello friend".data = some (1 / 3 : ℚ) := by
  simp only [jaccardMetric]
  rw [if_neg (by decide), if_pos (Or.inl ⟨"hello".data, by decide⟩)]
  have h1 : (wordSet "hello there".data ∩ wordSet "hello friend".data).card = 1 := by decide
  have h2 : (wordSet "hello there".data ∪ wordSet "hello friend".data).card = 3 := by decide
  rw [h1, h2]
  norm_num

/-- Pure core of `ModelComparator.generate_response`
(test_model_comparison.py lines 56-63): the token-level generation is
abstracted by the generated id sequence `outputIds`, and the tokenizer by
the function `decode` (its Bool argument is `skip_special_tokens`).  When no
tokens beyond the input length were produced the raw response is the empty
string; otherwise it is the decode of the new tokens only, with special
tokens suppressed, stripped of surrounding whitespace. -/
def generate_response (decode : Bool → List Nat → List Char)
    (inputIds outputIds : List Nat) : List Char :=
  if outputIds.length > inputIds.length then
    pyStrip (decode true (outputIds.drop inputIds.length))
  else
    []

/-- A Python exception, abstracted to its message. -/
structure PyErr where
  msg : String
deriving DecidableEq

/-- The slice of tokenizer state the conversion script touches: its pad and
end-of-sequence tokens. -/
structure Tokenizer where
  padToken : Option String
  eosToken : Option String
deriving DecidableEq

/-- JSON-like values appearing in a model configuration dictionary. -/
inductive JVal where
  | str : String → JVal
  | bool : Bool → JVal
  | num : Int → JVal
  | null : JVal
deriving DecidableEq

/-- First-match lookup in an association list, as for a Python dict key. -/
def lookupKey (k : String) : List (String × JVal) → Option JVal
  | [] => none
  | (k1, v) :: rest => if k1 = k then some v else lookupKey k rest

/-- Setting one key of a Python dict modelled as an association list: an
existing key keeps its position and gets the new value, a new key is
appended (insertion order semantics of `dict.update`). -/
def pySet (d : List (String × JVal)) (k : String) (v : JVal) : List (String × JVal) :=
  if d.any (fun p => p.1 == k) then
    d.map (fun p => if p.1 = k then (k, v) else p)
  else
    d ++ [(k, v)]

/-- Python `d.update(u)` for an association-list model of dicts. -/
def pyDictUpdate (d upd : List (String × JVal)) : List (String × JVal) :=
  upd.foldl (fun acc kv => pySet acc kv.1 kv.2) d

/-- The two fields forced into config.json by the conversion script
(convert_smollm_official.py lines 43-46). -/
def forcedOverrides : List (String × JVal) :=
  [("torch_dtype", JVal.str "float32"), ("use_cache", JVal.bool false)]

/-- Name of the configuration file written at the destination root. -/
def configFileName : String := "config.json"

/-- Path prefix of files saved into the nested onnx subdirectory. -/
def onnxDirName : String := "onnx/"

/-- Writing a batch of named files into a directory: files being rewritten
replace their stale versions, the rest of the directory is kept. -/
def fsWrite (fs names : List String) : List String :=
  fs.filter (fun f => !(names.contains f)) ++ names

/-- Outcomes of the external effects performed by
`convert_original_smollm_to_onnx`, in program order.  `initialDest` is the
state of the destination path before the run (`none`: absent, `some fs`:
a stale directory holding files `fs`); each `Except` field records whether
the corresponding library or filesystem call raises. -/
structure ConvEnv where
  initialDest : Option (List String)
  rmtreeRes : Except PyErr Unit
  makedirsRes : Except PyErr Unit
  exportRes : Except PyErr Unit
  loadTokRes : Except PyErr Tokenizer
  loadCfgRes : Except PyErr (List (String × JVal))
  saveTokRes : Except PyErr Unit
  tokFiles : List String
  writeCfgRes : Except PyErr Unit
  mkOnnxRes : Except PyErr Unit
  saveModelRes : Except PyErr Unit
  onnxFiles : List String

/-- What a successful conversion run leaves at the destination: the merged
configuration written to config.json, the final directory contents, and the
pad token the saved tokenizer carries. -/
structure Artifact where
  rootConfig : List (String × JVal)
  destFiles : List String
  savedPadToken : Option String
deriving DecidableEq

/-- Sequencing of fallible steps (Python statements inside the `try`): the
first raised exception aborts the rest of the block. -/
def eseq {α β : Type} (x : Except PyErr α) (f : α → Except PyErr β) : Except PyErr β :=
  match x with
  | .error e => .error e
  | .ok a => f a

/-- Body of the `try` block of `convert_original_smollm_to_onnx`
(convert_smollm_official.py lines 20-58): remove a pre-existing destination
directory, recreate it, export the model, load tokenizer and configuration,
default the pad token to the end-of-sequence token, save the tokenizer, write
the merged configuration, and save the exported model under `onnx/`. -/
def convertBody (env : ConvEnv) : Except PyErr Artifact :=
  eseq (if env.initialDest.isSome then env.rmtreeRes else Except.ok ()) fun _ =>
  eseq env.makedirsRes fun _ =>
  eseq env.exportRes fun _ =>
  eseq env.loadTokRes fun tok =>
  eseq env.loadCfgRes fun cfg =>
  eseq env.saveTokRes fun _ =>
  eseq env.writeCfgRes fun _ =>
  eseq env.mkOnnxRes fun _ =>
  eseq env.saveModelRes fun _ =>
  Except.ok
    { rootConfig := pyDictUpdate cfg forcedOverrides
      destFiles :=
        fsWrite (fsWrite (fsWrite [] env.tokFiles) [configFileName])
          (env.onnxFiles.map (fun n => onnxDirName ++ n))
      savedPadToken := if tok.padToken.isNone then tok.eosToken else tok.padToken }

/-- Top level of `convert_original_smollm_to_onnx`: the try/except wrapper.
On success it returns the local path and target repository; any exception in
the body is caught and the sentinel `(None, None)` is returned
(convert_smollm_official.py lines 58-63). -/
def convert_original_smollm_to_onnx (source_repo target_repo local_path : String)
    (env : ConvEnv) : Option String × Option String :=
  match source_repo, convertBody env with
  | _, .ok _ => (some local_path, some target_repo)
  | _, .error _ => (none, none)

/-- An effect environment in which every external step succeeds and the
destination path holds a stale directory from a prior run. -/
def envAllOk : ConvEnv :=
  { initialDest := some ["stale.bin"]
    rmtreeRes := Except.ok ()
    makedirsRes := Except.ok ()
    exportRes := Except.ok ()
    loadTokRes := Except.ok { padToken := some "<pad>", eosToken := some "<eos>" }
    loadCfgRes := Except.ok []
    saveTokRes := Except.ok ()
    tokFiles := ["tokenizer.json"]
    writeCfgRes := Except.ok ()
    mkOnnxRes := Except.ok ()
    saveModelRes := Except.ok ()
    onnxFiles := ["model.onnx"] }

/-- The artifact `envAllOk` produces. -/
def artAllOk : Artifact :=
  { rootConfig := [("torch_dtype", JVal.str "float32"), ("use_cache", JVal.bool false)]
    destFiles := ["tokenizer.json", "config.json", "onnx/model.onnx"]
    savedPadToken := some "<pad>" }

example : convertBody envAllOk = Except.ok artAllOk := rfl

/-- A source configuration carrying a value the overrides must replace and
an unrelated field the merge must preserve. -/
def cfgSample : List (String × JVal) :=
  [("torch_dtype", JVal.str "bfloat16"), ("vocab_size", JVal.num 49152)]

/-- Environment whose configuration load returns `cfgSample`. -/
def envWithCfg : ConvEnv :=
  { envAllOk with loadCfgRes := Except.ok cfgSample }

/-- The artifact `envWithCfg` produces. -/
def artWithCfg : Artifact :=
  { rootConfig :=
      [("torch_dtype", JVal.str "float32"), ("vocab_size", JVal.num 49152),
        ("use_cache", JVal.bool false)]
    destFiles := ["tokenizer.json", "config.json", "onnx/model.onnx"]
    savedPadToken := some "<pad>" }

example : convertBody envWithCfg = Except.ok artWithCfg := rfl

/-- Environment in which the export step raises. -/
def envExportFails : ConvEnv :=
  { envAllOk with exportRes := Except.error { msg := "export failed" } }

/-- Sample decode oracle used to instantiate `generate_response`. -/
def decodeSample : Bool → List Nat → List Char :=
  fun _ ids => if ids = [] then [] else "ok ".data

/-- Occurrence of one list as a contiguous segment of another. -/
def Seg (t s : List Char) : Prop := ∃ u v, s = u ++ t ++ v

theorem isPrefixOf_iff_exists (p s : List Char) :
    p.isPrefixOf s = true ↔ ∃ t, s = p ++ t := by
  induction p generalizing s with
  | nil => simp [List.isPrefixOf]
  | cons a as ih =>
    cases s with
    | nil => simp [List.isPrefixOf]
    | cons b bs =>
      simp only [List.isPrefixOf, Bool.and_eq_true, beq_iff_eq, ih, List.cons_append,
        List.cons.injEq]
      constructor
      · rintro ⟨rfl, t, rfl⟩; exact ⟨t, rfl, rfl⟩
      · rintro ⟨t, rfl, rfl⟩; exact ⟨rfl, t, rfl⟩

theorem occursIn_iff (p s : List Char) : occursIn p s = true ↔ Seg p s := by
  induction s with
  | nil =>
    simp only [occursIn, List.isEmpty_iff, Seg]
    constructor
    · rintro rfl; exact ⟨[], [], rfl⟩
    · rintro ⟨u, v, h⟩
      rcases List.append_eq_nil.mp (List.append_eq_nil.mp h.symm).1 with ⟨-, h2⟩
      exact h2
  | cons c cs ih =>
    simp only [occursIn, Bool.or_eq_true, isPrefixOf_iff_exists, ih]
    constructor
    · rintro (⟨t, ht⟩ | ⟨u, v, huv⟩)
      · exact ⟨[], t, by simpa using ht⟩
      · exact ⟨c :: u, v, by simp [huv]⟩
    · rintro ⟨u, v, h⟩
      cases u with
      | nil => exact Or.inl ⟨v, by simpa using h⟩
      | cons a us =>
        right
        rw [List.cons_append, List.cons_append] at h
        exact ⟨us, v, (List.cons.injEq _ _ _ _ ▸ h).2⟩

theorem seg_refl (s : List Char) : Seg s s := ⟨[], [], by simp⟩

theorem seg_trans {a b c : List Char} (h1 : Seg a b) (h2 : Seg b c) : Seg a c := by
  obtain ⟨u, v, rfl⟩ := h1
  obtain ⟨w, x, rfl⟩ := h2
  exact ⟨w ++ u, v ++ x, by simp⟩

theorem seg_drop (s : List Char) (n : Nat) : Seg (s.drop n) s :=
  ⟨s.take n, [], by simp⟩

theorem seg_dropWhile (p : Char → Bool) (s : List Char) : Seg (s.dropWhile p) s :=
  ⟨s.takeWhile p, [], by simp⟩

theorem seg_takeWhile (p : Char → Bool) (s : List Char) : Seg (s.takeWhile p) s :=
  ⟨[], s.dropWhile p, by simp⟩

theorem seg_pyStrip (s : List Char) : Seg (pyStrip s) s := by
  refine seg_trans (b := s.dropWhile isPySpace) ?_ (seg_dropWhile _ s)
  unfold pyStrip
  refine ⟨[], ((s.dropWhile isPySpace).reverse.takeWhile isPySpace).reverse, ?_⟩
  rw [List.nil_append, ← List.reverse_append, List.takeWhile_append_dropWhile,
    List.reverse_reverse]

theorem seg_stripAssistantLabel (s : List Char) : Seg (stripAssistantLabel s) s := by
  unfold stripAssistantLabel
  split
  · exact seg_trans (seg_dropWhile _ _) (seg_drop s 9)
  · exact seg_refl s

theorem occursIn_false_of_seg {p t s : List Char} (hseg : Seg t s)
    (h : occursIn p s = false) : occursIn p t = false := by
  by_contra hne
  rw [← ne_eq, Bool.ne_false_iff] at hne
  rw [occursIn_iff] at hne
  have := (occursIn_iff p s).mpr (seg_trans hne hseg)
  rw [this] at h
  cases h

theorem pyRemoveAux_eq_self (pat : List Char) (n : Nat) (s : List Char)
    (h : occursIn pat s = false) : pyRemoveAux pat n s = s := by
  induction n generalizing s with
  | zero => cases s <;> rfl
  | succ n ih =>
    cases s with
    | nil => rfl
    | cons c cs =>
      simp only [occursIn, Bool.or_eq_false_iff] at h
      simp only [pyRemoveAux, h.1, Bool.false_eq_true, if_false]
      rw [ih cs h.2]

theorem pyRemoveAll_eq_self {pat s : List Char} (h : occursIn pat s = false) :
    pyRemoveAll pat s = s :=
  pyRemoveAux_eq_self pat s.length s h

theorem mem_takeWhile_pred {p : Char → Bool} {s : List Char} {c : Char}
    (h : c ∈ s.takeWhile p) : p c = true := by
  induction s with
  | nil => cases h
  | cons a cs ih =>
    by_cases hp : p a = true
    · rw [List.takeWhile_cons_of_pos hp] at h
      rcases List.mem_cons.mp h with rfl | h
      · exact hp
      · exact ih h
    · rw [List.takeWhile_cons_of_neg hp] at h
      cases h

theorem takeWhile_eq_self {p : Char → Bool} {s : List Char}
    (h : ∀ c ∈ s, p c = true) : s.takeWhile p = s := by
  induction s with
  | nil => rfl
  | cons a cs ih =>
    rw [List.takeWhile_cons_of_pos (h a (List.mem_cons_self a cs))]
    rw [ih (fun c hc => h c (List.mem_cons_of_mem a hc))]

theorem clean_no_newline (s : List Char) : ∀ c ∈ clean s, c ≠ '\n' := by
  intro c hc
  have := mem_takeWhile_pred (p := fun c => c ≠ '\n') hc
  exact of_decide_eq_true this

theorem lookupKey_mapSet (d : List (String × JVal)) (k : String) (v : JVal)
    (h : d.any (fun p => p.1 == k) = true) :
    lookupKey k (d.map (fun p => if p.1 = k then (k, v) else p)) = some v := by
  induction d with
  | nil => cases h
  | cons p rest ih =>
    obtain ⟨k1, v1⟩ := p
    by_cases hp : k1 = k
    · subst hp
      show lookupKey k1 ((if k1 = k1 then (k1, v) else (k1, v1)) :: _) = some v
      rw [if_pos rfl]
      show (if k1 = k1 then some v else _) = some v
      rw [if_pos rfl]
    · have h2 : rest.any (fun p => p.1 == k) = true := by
        simp only [List.any_cons, Bool.or_eq_true, beq_iff_eq] at h
        exact h.resolve_left hp
      show lookupKey k ((if k1 = k then (k, v) else (k1, v1)) :: _) = some v
      rw [if_neg hp]
      show (if k1 = k then some v1 else _) = some v
      rw [if_neg hp]
      exact ih h2

theorem lookupKey_appendSet (d : List (String × JVal)) (k : String) (v : JVal)
    (h : d.any (fun p => p.1 == k) = false) :
    lookupKey k (d ++ [(k, v)]) = some v := by
  induction d with
  | nil =>
    show (if k = k then some v else lookupKey k []) = some v
    rw [if_pos rfl]
  | cons p rest ih =>
    obtain ⟨k1, v1⟩ := p
    simp only [List.any_cons, Bool.or_eq_false_iff, beq_eq_false_iff_ne, ne_eq] at h
    show (if k1 = k then some v1 else lookupKey k (rest ++ [(k, v)])) = some v
    rw [if_neg h.1]
    exact ih h.2

theorem lookupKey_pySet_self (d : List (String × JVal)) (k : String) (v : JVal) :
    lookupKey k (pySet d k v) = some v := by
  unfold pySet
  split
  · exact lookupKey_mapSet d k v (by assumption)
  · rename_i hfalse
    rw [Bool.not_eq_true] at hfalse
    exact lookupKey_appendSet d k v hfalse

theorem lookupKey_mapSet_ne (d : List (String × JVal)) (k k' : String) (v : JVal)
    (h : k' ≠ k) :
    lookupKey k' (d.map (fun p => if p.1 = k then (k, v) else p)) = lookupKey k' d := by
  induction d with
  | nil => rfl
  | cons p rest ih =>
    obtain ⟨k1, v1⟩ := p
    by_cases hp : k1 = k
    · subst hp
      show lookupKey k' ((if k1 = k1 then (k1, v) else (k1, v1)) :: _) = _
      rw [if_pos rfl]
      show (if k1 = k' then some v else _) = (if k1 = k' then some v1 else _)
      rw [if_neg (Ne.symm h), if_neg (Ne.symm h)]
      exact ih
    · show lookupKey k' ((if k1 = k then (k, v) else (k1, v1)) :: _) = _
      rw [if_neg hp]
      show (if k1 = k' then some v1 else _) = (if k1 = k' then some v1 else _)
      by_cases hk : k1 = k'
      · rw [if_pos hk, if_pos hk]
      · rw [if_neg hk, if_neg hk]
        exact ih

theorem lookupKey_append_ne (d : List (String × JVal)) (k k' : String) (v : JVal)
    (h : k' ≠ k) : lookupKey k' (d ++ [(k, v)]) = lookupKey k' d := by
  induction d with
  | nil =>
    show (if k = k' then some v else lookupKey k' []) = none
    rw [if_neg (Ne.symm h)]
    rfl
  | cons p rest ih =>
    obtain ⟨k1, v1⟩ := p
    show (if k1 = k' then some v1 else lookupKey k' (rest ++ [(k, v)])) = _
    rw [ih]
    rfl

theorem lookupKey_pySet_ne (d : List (String × JVal)) (k k' : String) (v : JVal)
    (h : k' ≠ k) : lookupKey k' (pySet d k v) = lookupKey k' d := by
  unfold pySet
  split
  · exact lookupKey_mapSet_ne d k k' v h
  · exact lookupKey_append_ne d k k' v h

theorem pyDictUpdate_forced (cfg : List (String × JVal)) :
    pyDictUpdate cfg forcedOverrides
      = pySet (pySet cfg "torch_dtype" (JVal.str "float32")) "use_cache" (JVal.bool false) := by
  rfl

theorem eseq_ok {α β : Type} (x : Except PyErr α) (f : α → Except PyErr β) (b : β)
    (h : eseq x f = Except.ok b) : ∃ a, x = Except.ok a ∧ f a = Except.ok b := by
  cases x with
  | error e => cases h
  | ok a => exact ⟨a, rfl, h⟩

/-- Inversion of a successful run of the conversion body: every external step
succeeded, the written configuration is the loaded one merged with the forced
overrides, and the final directory contents are exactly the files this run
wrote. -/
theorem convertBody_ok_inv (env : ConvEnv) (art : Artifact)
    (h : convertBody env = Except.ok art) :
    (env.initialDest.isSome = true → env.rmtreeRes = Except.ok ())
      ∧ env.makedirsRes = Except.ok ()
      ∧ env.exportRes = Except.ok ()
      ∧ (∃ tok, env.loadTokRes = Except.ok tok)
      ∧ (∀ cfg, env.loadCfgRes = Except.ok cfg →
          art.rootConfig = pyDictUpdate cfg forcedOverrides)
      ∧ (∃ cfg, env.loadCfgRes = Except.ok cfg)
      ∧ env.saveTokRes = Except.ok ()
      ∧ env.writeCfgRes = Except.ok ()
      ∧ env.mkOnnxRes = Except.ok ()
      ∧ env.saveModelRes = Except.ok ()
      ∧ art.destFiles
          = fsWrite (fsWrite (fsWrite [] env.tokFiles) [configFileName])
              (env.onnxFiles.map (fun n => onnxDirName ++ n)) := by
  unfold convertBody at h
  obtain ⟨⟨⟩, h0, h⟩ := eseq_ok _ _ _ h
  obtain ⟨⟨⟩, h1, h⟩ := eseq_ok _ _ _ h
  obtain ⟨⟨⟩, h2, h⟩ := eseq_ok _ _ _ h
  obtain ⟨tok, h3, h⟩ := eseq_ok _ _ _ h
  obtain ⟨cfg, h4, h⟩ := eseq_ok _ _ _ h
  obtain ⟨⟨⟩, h5, h⟩ := eseq_ok _ _ _ h
  obtain ⟨⟨⟩, h6, h⟩ := eseq_ok _ _ _ h
  obtain ⟨⟨⟩, h7, h⟩ := eseq_ok _ _ _ h
  obtain ⟨⟨⟩, h8, h⟩ := eseq_ok _ _ _ h
  have hart := (Except.ok.injEq _ _).mp h
  refine ⟨?_, h1, h2, ⟨tok, h3⟩, ?_, ⟨cfg, h4⟩, h5, h6, h7, h8, ?_⟩
  · intro hsome
    rwa [if_pos hsome] at h0
  · intro cfg2 hcfg2
    rw [h4] at hcfg2
    cases (Except.ok.injEq _ _).mp hcfg2
    rw [← hart]
  · rw [← hart]

theorem mem_fsWrite {f : String} {fs names : List String}
    (h : f ∈ fsWrite fs names) : f ∈ fs ∨ f ∈ names := by
  rcases List.mem_append.mp h with h | h
  · exact Or.inl (List.mem_filter.mp h).1
  · exact Or.inr h

theorem clean_fixed (t : List Char) (h1 : occursIn imStartMarker t = false)
    (h2 : occursIn imEndMarker t = false)
    (h3 : (t.take 9).map Char.toLower ≠ assistantLabel)
    (h4 : pyStrip t = t) (h5 : firstLine t = t) : clean t = t := by
  unfold clean stripAssistantLabel
  rw [pyRemoveAll_eq_self h1, pyRemoveAll_eq_self h2, if_neg h3, h4, h5]

/-- C1 (amended): the cleaning procedure always terminates (it is a total
function) and returns a string with no newline character; whenever the input
itself contains no occurrence of either role marker, the output contains none
either.  (The original claim, marker-freedom for every input, is false: each
marker is removed in a single left-to-right pass, and a removal can splice
the surrounding fragments into a new occurrence that survives; see the
counterexample.) -/
theorem clean_no_newline_and_conditionally_marker_free (s : List Char) :
    ('\n' ∉ clean s)
      ∧ (occursIn imStartMarker s = false → occursIn imEndMarker s = false →
          occursIn imStartMarker (clean s) = false
            ∧ occursIn imEndMarker (clean s) = false) := by
  constructor
  · intro hmem
    exact clean_no_newline s '\n' hmem rfl
  · intro h1 h2
    have hclean : clean s = firstLine (pyStrip (stripAssistantLabel s)) := by
      unfold clean
      rw [pyRemoveAll_eq_self h1, pyRemoveAll_eq_self h2]
    have hseg : Seg (clean s) s := by
      rw [hclean]
      exact seg_trans (seg_takeWhile _ _)
        (seg_trans (seg_pyStrip _) (seg_stripAssistantLabel _))
    exact ⟨occursIn_false_of_seg hseg h1, occursIn_false_of_seg hseg h2⟩

/-- Witness for C1 at a concrete marker-free input. -/
theorem clean_no_newline_and_conditionally_marker_free_witness :
    ('\n' ∉ clean "hi there".data)
      ∧ occursIn imStartMarker (clean "hi there".data) = false
      ∧ occursIn imEndMarker (clean "hi there".data) = false :=
  ⟨(clean_no_newline_and_conditionally_marker_free "hi there".data).1,
    ((clean_no_newline_and_conditionally_marker_free "hi there".data).2
      (by decide) (by decide)).1,
    ((clean_no_newline_and_conditionally_marker_free "hi there".data).2
      (by decide) (by decide)).2⟩

/-- Counterexample to C1 as stated: on this input, removing the inner
occurrence of the start marker splices the surrounding fragments into a new
start-marker occurrence, so the cleaned output does contain a role marker. -/
theorem clean_marker_free_counterexample :
    clean "<|im_st<|im_start|>art|>".data = imStartMarker
      ∧ occursIn imStartMarker (clean "<|im_st<|im_start|>art|>".data) = true :=
  ⟨by decide, by decide⟩

/-- C2 (amended): the cleaning procedure is idempotent on every input whose
cleaned output contains no marker occurrence, does not begin with the
case-insensitive label "assistant", and carries no leading or trailing
whitespace.  (Unconditional idempotence is false: taking the first line can
expose trailing whitespace that a second cleaning strips, a cleaned output
can itself begin with "assistant", and it can contain a spliced marker; see
the counterexample.) -/
theorem clean_idempotent_amended (s : List Char)
    (h1 : occursIn imStartMarker (clean s) = false)
    (h2 : occursIn imEndMarker (clean s) = false)
    (h3 : ((clean s).take 9).map Char.toLower ≠ assistantLabel)
    (h4 : pyStrip (clean s) = clean s) :
    clean (clean s) = clean s :=
  clean_fixed (clean s) h1 h2 h3 h4
    (takeWhile_eq_self (fun c hc => decide_eq_true (clean_no_newline s c hc)))

/-- Witness for C2 at a concrete input satisfying all side conditions. -/
theorem clean_idempotent_amended_witness :
    clean (clean "hello".data) = clean "hello".data :=
  clean_idempotent_amended "hello".data (by decide) (by decide) (by decide) (by decide)

/-- Counterexample to C2 as stated: cleaning "a \nb" yields "a " (the
first-line cut exposes a trailing space), and cleaning again yields "a". -/
theorem clean_idempotent_counterexample :
    clean (clean "a \nb".data) ≠ clean "a \nb".data := by decide

/-- C3: the exact-match flag is true exactly when the two cleaned strings are
character-for-character identical; the cleaned fields are the cleaning of the
raw responses, and raw responses that differ only in what cleaning removes
still produce an exact match (so the flag is not raw-string equality). -/
theorem exact_match_iff_cleaned_equal :
    ∀ a b : List Char,
      ((compare_responses a b).exact_match = true
          ↔ (compare_responses a b).onnx_cleaned = (compare_responses a b).original_cleaned)
        ∧ (compare_responses a b).original_cleaned = clean a
        ∧ (compare_responses a b).onnx_cleaned = clean b
        ∧ (compare_responses "x ".data "x".data).exact_match = true
        ∧ "x ".data ≠ "x".data := by
  intro a b
  refine ⟨?_, rfl, rfl, by decide, by decide⟩
  show (clean b == clean a) = true ↔ clean b = clean a
  exact beq_iff_eq

/-- C4: cleaning the documented raw response yields exactly the sentence
between the markers, and cleaning the empty string yields the empty
string. -/
theorem clean_concrete_examples :
    clean "<|im_start|>Assistant\nParis is the capital.<|im_end|>\nExtra line".data
        = "Paris is the capital.".data
      ∧ clean "".data = "".data :=
  ⟨by decide, by decide⟩

/-- C5: for the cleaned responses "hello there" and "hello friend" (not an
exact match), the word-set Jaccard similarity computed by the comparison is
exactly one third: the intersection is the singleton containing "hello" and
the union has three words. -/
theorem jaccard_hello_one_third :
    jaccardMetric "hello there".data "hello friend".data = some (1 / 3 : ℚ) := by
  simp only [jaccardMetric]
  rw [if_neg (by decide), if_pos (Or.inl ⟨"hello".data, by decide⟩)]
  have h1 : (wordSet "hello there".data ∩ wordSet "hello friend".data).card = 1 := by decide
  have h2 : (wordSet "hello there".data ∪ wordSet "hello friend".data).card = 3 := by decide
  rw [h1, h2]
  norm_num

/-- C6: the Jaccard computation is skipped when both word sets are empty, and
whenever a value is produced the union used as the divisor has positive
cardinality, so the division never divides by zero. -/
theorem jaccard_guarded_against_empty (oc xc : List Char) :
    (wordSet oc = ∅ → wordSet xc = ∅ → jaccardMetric oc xc = none)
      ∧ (∀ q : ℚ, jaccardMetric oc xc = some q → 0 < (wordSet oc ∪ wordSet xc).card) := by
  constructor
  · intro h1 h2
    simp only [jaccardMetric]
    split
    · rfl
    · rw [if_neg]
      rw [h1, h2]
      simp [Finset.not_nonempty_empty]
  · intro q hq
    simp only [jaccardMetric] at hq
    split at hq
    · cases hq
    · split at hq
      · rename_i hne
        apply Finset.card_pos.mpr
        rcases hne with h | h
        · exact h.mono Finset.subset_union_left
        · exact h.mono Finset.subset_union_right
      · cases hq

/-- Witness for C6: both conjuncts at concrete inputs (an all-whitespace pair
where the metric is skipped, and a two-word pair where the divisor is 2). -/
theorem jaccard_guarded_against_empty_witness :
    jaccardMetric "   ".data "".data = none
      ∧ 0 < (wordSet "a".data ∪ wordSet "b".data).card :=
  ⟨(jaccard_guarded_against_empty "   ".data "".data).1 (by decide) (by decide),
    (jaccard_guarded_against_empty "a".data "b".data).2 0 (by
      simp only [jaccardMetric]
      rw [if_neg (by decide), if_pos (Or.inl ⟨"a".data, by decide⟩)]
      have h1 : (wordSet "a".data ∩ wordSet "b".data).card = 0 := by decide
      have h2 : (wordSet "a".data ∪ wordSet "b".data).card = 2 := by decide
      rw [h1, h2]
      norm_num)⟩

/-- C7: an exception raised by any load, export or save step of the
conversion body is caught by the surrounding handler, which returns the
sentinel pair (None, None); no exception propagates to the caller. -/
theorem conversion_failure_returns_sentinel (source_repo target_repo local_path : String)
    (env : ConvEnv) (e : PyErr)
    (h : (env.initialDest.isSome = true ∧ env.rmtreeRes = Except.error e)
        ∨ env.makedirsRes = Except.error e
        ∨ env.exportRes = Except.error e
        ∨ env.loadTokRes = Except.error e
        ∨ env.loadCfgRes = Except.error e
        ∨ env.saveTokRes = Except.error e
        ∨ env.writeCfgRes = Except.error e
        ∨ env.mkOnnxRes = Except.error e
        ∨ env.saveModelRes = Except.error e) :
    convert_original_smollm_to_onnx source_repo target_repo local_path env = (none, none) := by
  unfold convert_original_smollm_to_onnx
  cases hcb : convertBody env with
  | error e2 => rfl
  | ok art =>
    exfalso
    obtain ⟨s0, s1, s2, ⟨tok, s3⟩, -, ⟨cfg, s4⟩, s5, s6, s7, s8, -⟩ :=
      convertBody_ok_inv env art hcb
    rcases h with ⟨hsome, herr⟩ | herr | herr | herr | herr | herr | herr | herr | herr
    · rw [s0 hsome] at herr; cases herr
    · rw [s1] at herr; cases herr
    · rw [s2] at herr; cases herr
    · rw [s3] at herr; cases herr
    · rw [s4] at herr; cases herr
    · rw [s5] at herr; cases herr
    · rw [s6] at herr; cases herr
    · rw [s7] at herr; cases herr
    · rw [s8] at herr; cases herr

/-- Witness for C7: a failing export step yields the sentinel. -/
theorem conversion_failure_returns_sentinel_witness :
    convert_original_smollm_to_onnx "maximuspowers/smollm-convo-filler"
        "maximuspowers/smollm-convo-filler-onnx" "./smollm-convo-filler-onnx-official"
        envExportFails = (none, none) :=
  conversion_failure_returns_sentinel _ _ _ envExportFails { msg := "export failed" }
    (Or.inr (Or.inr (Or.inl rfl)))

/-- C8: after a successful conversion the written config.json holds the two
forced overrides, and every other key of the source configuration keeps its
original value. -/
theorem config_has_forced_overrides (env : ConvEnv) (cfg : List (String × JVal))
    (art : Artifact) (hcfg : env.loadCfgRes = Except.ok cfg)
    (hok : convertBody env = Except.ok art) (k : String)
    (hk1 : k ≠ "torch_dtype") (hk2 : k ≠ "use_cache") :
    lookupKey "torch_dtype" art.rootConfig = some (JVal.str "float32")
      ∧ lookupKey "use_cache" art.rootConfig = some (JVal.bool false)
      ∧ lookupKey k art.rootConfig = lookupKey k cfg := by
  obtain ⟨-, -, -, -, hroot, -, -, -, -, -, -⟩ := convertBody_ok_inv env art hok
  rw [hroot cfg hcfg, pyDictUpdate_forced]
  refine ⟨?_, ?_, ?_⟩
  · rw [lookupKey_pySet_ne _ _ _ _ (by decide), lookupKey_pySet_self]
  · rw [lookupKey_pySet_self]
  · rw [lookupKey_pySet_ne _ _ _ _ hk2, lookupKey_pySet_ne _ _ _ _ hk1]

/-- Witness for C8: a source configuration whose torch_dtype value is
replaced and whose vocab_size field is preserved. -/
theorem config_has_forced_overrides_witness :
    lookupKey "torch_dtype" artWithCfg.rootConfig = some (JVal.str "float32")
      ∧ lookupKey "use_cache" artWithCfg.rootConfig = some (JVal.bool false)
      ∧ lookupKey "vocab_size" artWithCfg.rootConfig = lookupKey "vocab_size" cfgSample :=
  config_has_forced_overrides envWithCfg cfgSample artWithCfg rfl rfl "vocab_size"
    (by decide) (by decide)

/-- C9: when the destination already holds a stale directory, a successful
run removes it before writing, so every file present afterwards is one this
run wrote: a tokenizer file, the config.json, or a file under onnx/. -/
theorem conversion_clean_slate (env : ConvEnv) (stale : List String) (art : Artifact)
    (hstale : env.initialDest = some stale)
    (hok : convertBody env = Except.ok art) :
    ∀ f ∈ art.destFiles,
      f ∈ env.tokFiles ∨ f = configFileName ∨ ∃ n ∈ env.onnxFiles, f = onnxDirName ++ n := by
  obtain ⟨-, -, -, -, -, -, -, -, -, -, hdest⟩ := convertBody_ok_inv env art hok
  intro f hf
  rw [hdest] at hf
  rcases mem_fsWrite hf with hf | hf
  · rcases mem_fsWrite hf with hf | hf
    · rcases mem_fsWrite hf with hf | hf
      · cases hf
      · exact Or.inl hf
    · exact Or.inr (Or.inl (List.mem_singleton.mp hf))
  · obtain ⟨n, hn, hfn⟩ := List.mem_map.mp hf
    exact Or.inr (Or.inr ⟨n, hn, hfn.symm⟩)

/-- Witness for C9 at a successful run over a stale directory. -/
theorem conversion_clean_slate_witness :
    "tokenizer.json" ∈ envAllOk.tokFiles ∨ "tokenizer.json" = configFileName
      ∨ ∃ n ∈ envAllOk.onnxFiles, "tokenizer.json" = onnxDirName ++ n :=
  conversion_clean_slate envAllOk ["stale.bin"] artAllOk rfl rfl "tokenizer.json" (by decide)

/-- C10: generate_response returns the empty string whenever generation
produced no tokens beyond the input length, and otherwise the
whitespace-stripped decode (with special tokens suppressed) of exactly the
tokens beyond the input length. -/
theorem generate_response_new_tokens_only (decode : Bool → List Nat → List Char)
    (inputIds outputIds : List Nat) :
    (outputIds.length ≤ inputIds.length → generate_response decode inputIds outputIds = [])
      ∧ (inputIds.length < outputIds.length →
          generate_response decode inputIds outputIds
            = pyStrip (decode true (outputIds.drop inputIds.length))) := by
  constructor
  · intro h
    unfold generate_response
    rw [if_neg (by omega)]
  · intro h
    unfold generate_response
    rw [if_pos h]

/-- Witness for C10: one run that produced no new tokens and one that
produced a new token. -/
theorem generate_response_new_tokens_only_witness :
    generate_response decodeSample [7] [7] = []
      ∧ generate_response decodeSample [7] [7, 9]
          = pyStrip (decodeSample true ([7, 9].drop 1)) :=
  ⟨(generate_response_new_tokens_only decodeSample [7] [7]).1 (by decide),
    (generate_response_new_tokens_only decodeSample [7] [7, 9]).2 (by decide)⟩

end ConvoFiller
